import Mathlib

/-!
# denet: the account service handlers

A shallow embedding of `cmd/server/server.go` (the unary `GetAccount`
handler, the streaming `GetAccounts` handler, the resolvers and the
signature verifier) and of the request built by `cmd/client/client.go`.

Library calls (go-ethereum `common` and `crypto`, `encoding/base64`,
`crypto/sha256`) and the ledger client are parameters of the model: the
handlers are verified against whatever those functions return.
-/

set_option maxRecDepth 8000

namespace Denet

/-- A byte, kept as a natural number below 256. -/
abbrev Byte := Nat

/-- The bytes of an ASCII string, as the Go conversion of a string to a byte slice gives them. -/
def bytesOf (s : String) : List Byte := s.data.map Char.toNat

/-- Substitution of the `%v` verbs of a format by the operands, left to right. -/
def sprintfChars : List Char → List String → List Char
  | '%' :: 'v' :: rest, a :: as => a.data ++ sprintfChars rest as
  | c :: rest, as => c :: sprintfChars rest as
  | [], _ => []

/-- The text `fmt.Sprintf` builds for a format whose only verbs are `%v`. -/
def Sprintf (format : String) (args : List String) : String :=
  String.mk (sprintfChars format.data args)

/-- A Go error value. `EOF` is the sentinel `io.EOF`; `text` is an error made by a
library or by the transport, known by its message; `errorf` is a value built by
`fmt.Errorf` from a format and the rendered operands of its `%v` verbs. -/
inductive GoError where
  | EOF
  | text (msg : String)
  | errorf (format : String) (args : List String)
  deriving DecidableEq, Repr

/-- The method `Error()` of an error value. -/
def GoError.Error : GoError → String
  | .EOF => "EOF"
  | .text msg => msg
  | .errorf format args => Sprintf format args

/-- Equality of results is decidable when it is on values and on errors. -/
instance decEqExcept {ε α : Type} [DecidableEq ε] [DecidableEq α] : DecidableEq (Except ε α)
  | .ok a, .ok b => if h : a = b then isTrue (by rw [h]) else isFalse (by intro h'; cases h'; exact h rfl)
  | .error a, .error b =>
    if h : a = b then isTrue (by rw [h]) else isFalse (by intro h'; cases h'; exact h rfl)
  | .ok _, .error _ => isFalse (by intro h; cases h)
  | .error _, .ok _ => isFalse (by intro h; cases h)

/-- The type `common.Address`: the bytes of a ledger address. -/
structure Address where
  bytes : List Byte
  deriving DecidableEq, Repr

/-- The type `ecdsa.PublicKey` on the fixed curve: the coordinates of the point. -/
structure PublicKey where
  X : Nat
  Y : Nat
  deriving DecidableEq, Repr

/-- The type `ecdsa.PrivateKey`: the public key and the secret scalar. -/
structure PrivateKey where
  PublicKey : Denet.PublicKey
  D : Nat
  deriving DecidableEq, Repr

/-- The library functions the handlers and the client call. -/
structure Lib where
  /-- The function `common.HexToAddress`: it has no error result. -/
  HexToAddress : String → Address
  /-- The method `common.Address.Hex`. -/
  Hex : Address → String
  /-- The method `base64.StdEncoding.EncodeToString`. -/
  EncodeToString : List Byte → String
  /-- The method `base64.StdEncoding.DecodeString`. -/
  DecodeString : String → Except GoError (List Byte)
  /-- The function `sha256.Sum256`. -/
  Sum256 : List Byte → List Byte
  /-- The function `crypto.Sign`, applied to a hash and a private key. -/
  Sign : List Byte → PrivateKey → Except GoError (List Byte)
  /-- The function `crypto.SigToPub`, applied to a hash and a signature. -/
  SigToPub : List Byte → List Byte → Except GoError PublicKey
  /-- The function `crypto.PubkeyToAddress`. -/
  PubkeyToAddress : PublicKey → Address

/-- The ledger collaborator reached through `*ethclient.Client`: binding of the
ERC-20 contract at a token address (`erc20.NewErc20`, the error if any), the
read-only `BalanceOf` of a bound contract for an owner (token first, owner
second; the result is an unsigned 256-bit quantity), and `PendingNonceAt`. -/
structure EthClient where
  NewErc20 : Address → Option GoError
  BalanceOf : Address → Address → Except GoError Nat
  PendingNonceAt : Address → Except GoError Nat

/-- The server: its client handle may be nil. -/
structure Server where
  client : Option EthClient

/-- The message `pb.GetAccountRequest`. -/
structure GetAccountRequest where
  EthereumAddress : String
  CryptoSignature : String
  deriving DecidableEq, Repr

/-- The message `pb.GetAccountResponse`. -/
structure GetAccountResponse where
  GastokenBalance : String
  WalletNonce : Nat
  deriving DecidableEq, Repr

/-- The message `pb.GetAccountsRequest`. -/
structure GetAccountsRequest where
  EthereumAddresses : List String
  Erc20TokenAddress : String
  deriving DecidableEq, Repr

/-- The message `pb.GetAccountsResponse`. -/
structure GetAccountsResponse where
  EthereumAddress : String
  Erc20Balance : String
  deriving DecidableEq, Repr

/-- The method `String()` of a non-negative `*big.Int`: its decimal text. -/
def BigInt.String (b : Nat) : String := Nat.repr b

/-- The number a decimal text denotes, read from the most significant digit. -/
def decimalValue (s : String) : Nat :=
  s.data.foldl (fun acc c => acc * 10 + (c.toNat - 48)) 0

/-- The calls a run of `GetAccount` makes, in the order it makes them. -/
inductive Call where
  | isValidSignature (address : Address) (signature : List Byte)
  | NewErc20 (tokenAddress : Address)
  | BalanceOf (tokenAddress owner : Address)
  | PendingNonceAt (address : Address)
  deriving DecidableEq, Repr

/-- The plaintext the server verifies signatures against (`isValidSignature`). -/
def serverMessage : List Byte := bytesOf "some message"

/-- The plaintext the client signs (`cmd/client/client.go`). -/
def clientMessage : List Byte := bytesOf "some message"

/-- The signature verifier of `server.go`. -/
def isValidSignature (lib : Lib) (address : Address) (signature : List Byte) : Bool :=
  let msg := serverMessage
  let hash := lib.Sum256 msg
  match lib.SigToPub hash signature with
  | .error _ => false
  | .ok pubKey => decide (lib.PubkeyToAddress pubKey = address)

/-- The balance resolver `GetTokenBalance`, with the collaborator calls it made. -/
def GetTokenBalance (client : EthClient) (tokenAddress owner : Address) :
    List Call × Except GoError Nat :=
  match client.NewErc20 tokenAddress with
  | some err =>
    ([.NewErc20 tokenAddress],
      .error (.errorf "failed to create contract instance: %v" [err.Error]))
  | none =>
    match client.BalanceOf tokenAddress owner with
    | .error err =>
      ([.NewErc20 tokenAddress, .BalanceOf tokenAddress owner],
        .error (.errorf "failed to retrieve balance: %v" [err.Error]))
    | .ok balance =>
      ([.NewErc20 tokenAddress, .BalanceOf tokenAddress owner], .ok balance)

/-- The nonce resolver `GetNonce`, with the collaborator call it made. -/
def GetNonce (client : EthClient) (address : Address) : List Call × Except GoError Nat :=
  match client.PendingNonceAt address with
  | .error err =>
    ([.PendingNonceAt address], .error (.errorf "failed to get nonce: %v" [err.Error]))
  | .ok nonce => ([.PendingNonceAt address], .ok nonce)

/-- The token `GetAccount` queries, as written in `server.go`. -/
def fixedToken : String := "0xdAC17F958D2ee523a2206206994597C13D831ec7"

/-- The unary handler `Server.GetAccount`: the calls it made and what it returns
(a response, or an error with the response nil). -/
def GetAccount (lib : Lib) (s : Server) (req : GetAccountRequest) :
    List Call × Except GoError GetAccountResponse :=
  match s.client with
  | none => ([], .error (.errorf "Ethereum client is not initialized" []))
  | some client =>
    let ethereumAddress := lib.HexToAddress req.EthereumAddress
    let cryptoSignature := req.CryptoSignature
    match lib.DecodeString cryptoSignature with
    | .error err => ([], .error (.errorf "failed to decode signature: %v" [err.Error]))
    | .ok signature =>
      if !isValidSignature lib ethereumAddress signature then
        ([.isValidSignature ethereumAddress signature], .error (.errorf "invalid signature" []))
      else
        let tokenAddress := lib.HexToAddress fixedToken
        match GetTokenBalance client tokenAddress ethereumAddress with
        | (c₁, .error err) =>
          (.isValidSignature ethereumAddress signature :: c₁,
            .error (.errorf "failed to get token balance: %v" [err.Error]))
        | (c₁, .ok gasTokenBalance) =>
          match GetNonce client ethereumAddress with
          | (c₂, .error err) =>
            (.isValidSignature ethereumAddress signature :: (c₁ ++ c₂),
              .error (.errorf "failed to get nonce: %v" [err.Error]))
          | (c₂, .ok walletNonce) =>
            (.isValidSignature ethereumAddress signature :: (c₁ ++ c₂),
              .ok ⟨BigInt.String gasTokenBalance, walletNonce⟩)

/-- How a run of the stream handler, or of the client, ends: the handler returns
(`none` is a nil error), or `log.Fatalf` prints its message and exits the
process, or a nil client handle is dereferenced. -/
inductive Exit where
  | returned (err : Option GoError)
  | fatal (format : String) (args : List String)
  | nilClient
  deriving DecidableEq, Repr

/-- The helper `getERC20Balance`: the balance text, unless the process exits. It
takes the holder address first and the token address second. -/
def getERC20Balance (lib : Lib) (client : Option EthClient) (address tokenAddress : String) :
    Except Exit String :=
  let tokenAddressCommon := lib.HexToAddress tokenAddress
  let userAddressCommon := lib.HexToAddress address
  match client with
  | none => .error .nilClient
  | some client =>
    match client.NewErc20 tokenAddressCommon with
    | some err => .error (.fatal "Failed to load ERC20 contract: %v" [err.Error])
    | none =>
      match client.BalanceOf tokenAddressCommon userAddressCommon with
      | .error err => .error (.fatal "Failed to retrieve token balance: %v" [err.Error])
      | .ok balance => .ok (BigInt.String balance)

/-- The server side of one `GetAccounts` stream, as the handler observes it:
the messages `Recv` yields in arrival order, the error `Recv` returns once they
are consumed (`io.EOF` after the client closed its send direction, a transport
error otherwise), and the error of the k-th `Send`, counting from 0, if any. -/
structure ServerStream where
  inbound : List GetAccountsRequest
  closing : GoError
  sendErr : Nat → Option GoError

/-- The inner loop of `GetAccounts` over the addresses of one message, from the
k-th `Send` on: the responses `Send` accepted, and how the handler ended if it
ended inside the loop. -/
def GetAccounts.range (lib : Lib) (client : Option EthClient) (sendErr : Nat → Option GoError)
    (tokenAddress : String) : List String → Nat → List GetAccountsResponse × Option Exit
  | [], _ => ([], none)
  | ethAddress :: rest, k =>
    match getERC20Balance lib client ethAddress tokenAddress with
    | .error exit => ([], some exit)
    | .ok balance =>
      let response : GetAccountsResponse := ⟨ethAddress, balance⟩
      match sendErr k with
      | some err => ([], some (.returned (some err)))
      | none =>
        let r := GetAccounts.range lib client sendErr tokenAddress rest (k + 1)
        (response :: r.1, r.2)

/-- The outer loop of `GetAccounts` over the messages still to be received, from
the k-th `Send` on. -/
def GetAccounts.loop (lib : Lib) (client : Option EthClient) (sendErr : Nat → Option GoError)
    (closing : GoError) : List GetAccountsRequest → Nat → List GetAccountsResponse × Exit
  | [], _ => ([], if closing = .EOF then .returned none else .returned (some closing))
  | req :: rest, k =>
    match GetAccounts.range lib client sendErr req.Erc20TokenAddress req.EthereumAddresses k with
    | (out, some exit) => (out, exit)
    | (out, none) =>
      let r := GetAccounts.loop lib client sendErr closing rest (k + out.length)
      (out ++ r.1, r.2)

/-- The streaming handler `Server.GetAccounts`: the responses emitted, in order,
and how the call ended. -/
def GetAccounts (lib : Lib) (s : Server) (stream : ServerStream) :
    List GetAccountsResponse × Exit :=
  GetAccounts.loop lib s.client stream.sendErr stream.closing stream.inbound 0

/-- The request `main` of `cmd/client/client.go` builds from its private key,
unless signing fails and the client exits. -/
def clientRequest (lib : Lib) (privateKey : PrivateKey) : Except Exit GetAccountRequest :=
  let address := lib.Hex (lib.PubkeyToAddress privateKey.PublicKey)
  let message := clientMessage
  let hash := lib.Sum256 message
  match lib.Sign hash privateKey with
  | .error err => .error (.fatal "failed to sign message: %v" [err.Error])
  | .ok signature =>
    let signatureBase64 := lib.EncodeToString signature
    .ok ⟨address, signatureBase64⟩

/-- The error kinds of the service interface. -/
inductive ErrorKind where
  | InvalidEncoding
  | Unauthenticated
  | UpstreamUnavailable
  deriving DecidableEq, Repr

/-- The kind an error returned by `GetAccount` stands for, read off the
`fmt.Errorf` call that built it: a signature that does not decode is
`InvalidEncoding`, one that does not verify is `Unauthenticated`, a failed
balance or nonce lookup is `UpstreamUnavailable`. -/
def errorKind : GoError → Option ErrorKind
  | .errorf format _ =>
    if format = "failed to decode signature: %v" then some .InvalidEncoding
    else if format = "invalid signature" then some .Unauthenticated
    else if format = "failed to get token balance: %v" then some .UpstreamUnavailable
    else if format = "failed to get nonce: %v" then some .UpstreamUnavailable
    else none
  | _ => none

/-- The responses a stream owes when every lookup succeeds: for each message in
arrival order, for each address in the order listed, the address as supplied
with the decimal text of the balance `b` gives for the converted token and
address. -/
def owed (lib : Lib) (b : Address → Address → Nat) (msgs : List GetAccountsRequest) :
    List GetAccountsResponse :=
  msgs.flatMap fun m =>
    m.EthereumAddresses.map fun a =>
      ⟨a, BigInt.String (b (lib.HexToAddress m.Erc20TokenAddress) (lib.HexToAddress a))⟩

/-! ## A concrete library, to run the handlers on explicit inputs

The hex and base64 codecs follow the real ones (error texts are shortened, and
`Hex` prints lower-case digits where the real one mixes cases as a checksum). The
signature scheme is a stand-in with the shape of the real one: 32-byte hashes,
65-byte signatures, recovery that fails on a wrong length or a wrong final byte.
The theorems below hold for every `Lib`; this one only instantiates them. -/

/-- The value of a hexadecimal digit, in either case. -/
def fromHexChar (c : Char) : Option Nat :=
  let n := c.toNat
  if 48 ≤ n ∧ n ≤ 57 then some (n - 48)
  else if 97 ≤ n ∧ n ≤ 102 then some (n - 87)
  else if 65 ≤ n ∧ n ≤ 70 then some (n - 55)
  else none

/-- The bytes `hex.DecodeString` has decoded when it stops: all of them, or those
before the first pair that is not hexadecimal (`common.Hex2Bytes` drops the error). -/
def Hex2Bytes : List Char → List Byte
  | a :: b :: rest =>
    match fromHexChar a, fromHexChar b with
    | some x, some y => (16 * x + y) :: Hex2Bytes rest
    | _, _ => []
  | _ => []

/-- The function `common.FromHex`: an optional `0x` or `0X` is removed and an odd
number of digits gets a leading zero. -/
def FromHex (s : List Char) : List Byte :=
  let s := match s with
    | '0' :: 'x' :: r => r
    | '0' :: 'X' :: r => r
    | _ => s
  let s := if s.length % 2 = 1 then '0' :: s else s
  Hex2Bytes s

/-- The function `common.BytesToAddress`: longer input is cropped from the left,
shorter input is padded with zero bytes on the left. -/
def BytesToAddress (b : List Byte) : Address :=
  let b := if b.length > 20 then b.drop (b.length - 20) else b
  ⟨List.replicate (20 - b.length) 0 ++ b⟩

/-- A lower-case hexadecimal digit. -/
def hexDigit (n : Nat) : Char :=
  if n < 10 then Char.ofNat (48 + n) else Char.ofNat (87 + n)

/-- The hexadecimal text of bytes, two digits each. -/
def hexChars : List Byte → List Char
  | [] => []
  | b :: rest => hexDigit (b / 16 % 16) :: hexDigit (b % 16) :: hexChars rest

/-- The index of a character in the standard base64 alphabet. -/
def b64Value (c : Char) : Option Nat :=
  let n := c.toNat
  if 65 ≤ n ∧ n ≤ 90 then some (n - 65)
  else if 97 ≤ n ∧ n ≤ 122 then some (n - 71)
  else if 48 ≤ n ∧ n ≤ 57 then some (n + 4)
  else if n = 43 then some 62
  else if n = 47 then some 63
  else none

/-- The character of the standard base64 alphabet at an index below 64. -/
def b64Char (v : Nat) : Char :=
  if v < 26 then Char.ofNat (65 + v)
  else if v < 52 then Char.ofNat (71 + v)
  else if v < 62 then Char.ofNat (v - 4)
  else if v = 62 then '+'
  else '/'

/-- Standard base64 with padding, three bytes to four characters. -/
def b64Encode : List Byte → List Char
  | [] => []
  | [a] => [b64Char (a / 4), b64Char (a % 4 * 16), '=', '=']
  | [a, b] => [b64Char (a / 4), b64Char (a % 4 * 16 + b / 16), b64Char (b % 16 * 4), '=']
  | a :: b :: c :: rest =>
    b64Char (a / 4) :: b64Char (a % 4 * 16 + b / 16) :: b64Char (b % 16 * 4 + c / 64) ::
      b64Char (c % 64) :: b64Encode rest

/-- The error of a base64 text that does not decode. -/
def corruptInput : GoError := .text "illegal base64 data"

/-- Standard base64 decoding of a text without line breaks: padding is required,
nothing may follow it, and the unused low bits of the last character are ignored. -/
def b64Decode : List Char → Except GoError (List Byte)
  | [] => .ok []
  | [a, b, '=', '='] =>
    match b64Value a, b64Value b with
    | some x, some y => .ok [x * 4 + y / 16]
    | _, _ => .error corruptInput
  | [a, b, c, '='] =>
    match b64Value a, b64Value b, b64Value c with
    | some x, some y, some z => .ok [x * 4 + y / 16, y % 16 * 16 + z / 4]
    | _, _, _ => .error corruptInput
  | a :: b :: c :: d :: rest =>
    match b64Value a, b64Value b, b64Value c, b64Value d with
    | some x, some y, some z, some w =>
      match b64Decode rest with
      | .ok bytes => .ok ((x * 4 + y / 16) :: (y % 16 * 16 + z / 4) :: (z % 4 * 64 + w) :: bytes)
      | .error e => .error e
    | _, _, _, _ => .error corruptInput
  | _ => .error corruptInput

/-- The k low-order bytes of a number, most significant first. -/
def bigEndian : Nat → Nat → List Byte
  | 0, _ => []
  | k + 1, n => bigEndian k (n / 256) ++ [n % 256]

/-- The number a big-endian byte string denotes. -/
def fromBigEndian (bytes : List Byte) : Nat :=
  bytes.foldl (fun acc b => acc * 256 + b) 0

/-- The concrete library. -/
def refLib : Lib where
  HexToAddress s := BytesToAddress (FromHex s.data)
  Hex a := String.mk ('0' :: 'x' :: hexChars a.bytes)
  EncodeToString bytes := String.mk (b64Encode bytes)
  DecodeString s := b64Decode (s.data.filter fun c => c ≠ '\n' ∧ c ≠ '\r')
  Sum256 msg := List.replicate 31 0 ++ [msg.sum % 256]
  Sign hash key :=
    if hash.length = 32 then
      .ok (bigEndian 32 key.PublicKey.X ++ bigEndian 32 key.PublicKey.Y ++ [hash.sum % 2])
    else .error (.text "hash is required to be exactly 32 bytes")
  SigToPub hash sig :=
    if sig.length = 65 then
      if sig.drop 64 = [hash.sum % 2] then
        .ok ⟨fromBigEndian (sig.take 32), fromBigEndian ((sig.drop 32).take 32)⟩
      else .error (.text "recovery failed")
    else .error (.text "invalid signature length")
  PubkeyToAddress pub := ⟨(bigEndian 32 (pub.X + pub.Y)).drop 12⟩

/-- A ledger that knows one token and two holders and fails elsewhere. -/
def refLedger : EthClient where
  NewErc20 _ := none
  BalanceOf token owner :=
    if token = refLib.HexToAddress fixedToken then
      if owner = refLib.HexToAddress "0x0000000000000000000000000000000000000003" then .ok 1000000
      else if owner = refLib.HexToAddress "0x00000000000000000000000000000000000000a1" then .ok 250
      else if owner = refLib.HexToAddress "0x00000000000000000000000000000000000000c3" then .ok 5
      else .error (.text "execution reverted")
    else .error (.text "no contract code at given address")
  PendingNonceAt owner :=
    if owner = refLib.HexToAddress "0x0000000000000000000000000000000000000003" then .ok 7
    else .error (.text "connection refused")

/-- A private key of the stand-in scheme. -/
def refKey : PrivateKey := ⟨⟨1, 2⟩, 9⟩

/-- A server holding the concrete ledger. -/
def refServer : Server := ⟨some refLedger⟩

/-- The signature text the client builds from the concrete key. -/
def refSignatureText : String :=
  "AAAAAAAAAAAAAAAAAAAAAAAAAAAAAAAAAAAAAAAAAAEAAAAAAAAAAAAAAAAAAAAAAAAAAAAAAAAAAAAAAAAAAgE="

/-- The signature bytes the concrete key makes over the hash of the fixed message. -/
def refSignature : List Byte :=
  bigEndian 32 1 ++ bigEndian 32 2 ++ [1]

/-- The address of the concrete key, as text. -/
def refAddressText : String := "0x0000000000000000000000000000000000000003"

/-- The responses of a list that `Send` accepts from the k-th call on, up to the
first call that fails, and the error of that call. -/
def sendUntilError (sendErr : Nat → Option GoError) :
    Nat → List GetAccountsResponse → List GetAccountsResponse × Option GoError
  | _, [] => ([], none)
  | k, r :: rs =>
    match sendErr k with
    | some e => ([], some e)
    | none => (r :: (sendUntilError sendErr (k + 1) rs).1, (sendUntilError sendErr (k + 1) rs).2)

/-- How `GetAccounts` ends once its sends are done: with the error of the failed
`Send`, or else with nil after `io.EOF` and with the error of `Recv` otherwise. -/
def streamExit (closing : GoError) : Option GoError → Exit
  | some e => .returned (some e)
  | none => if closing = .EOF then .returned none else .returned (some closing)

/-- A ledger that answers every lookup: the balance is the sum of the bytes of
the token and of the holder. -/
def okLedger : EthClient where
  NewErc20 _ := none
  BalanceOf token owner := .ok (token.bytes.sum + owner.bytes.sum)
  PendingNonceAt _ := .ok 0

/-- A well-formed address text as the interface describes it: `0x` followed by
forty hexadecimal digits. -/
def wellFormedAddress (s : String) : Bool :=
  match s.data with
  | '0' :: 'x' :: digits => digits.length = 40 ∧ digits.all fun c => (fromHexChar c).isSome
  | _ => false

/-- A stream of one message with three addresses and the fixed token. -/
def refStream (sendErr : Nat → Option GoError) : ServerStream :=
  ⟨[⟨["0x00000000000000000000000000000000000000a1",
      "0x00000000000000000000000000000000000000b2",
      "0x00000000000000000000000000000000000000c3"], fixedToken⟩], .EOF, sendErr⟩

/-! ## The unary handler -/

theorem errorKind_decode (args : List String) :
    errorKind (.errorf "failed to decode signature: %v" args) = some .InvalidEncoding := by
  simp [errorKind]

theorem errorKind_invalid (args : List String) :
    errorKind (.errorf "invalid signature" args) = some .Unauthenticated := by
  simp [errorKind]

theorem errorKind_balance (args : List String) :
    errorKind (.errorf "failed to get token balance: %v" args) = some .UpstreamUnavailable := by
  simp [errorKind]

theorem errorKind_nonce (args : List String) :
    errorKind (.errorf "failed to get nonce: %v" args) = some .UpstreamUnavailable := by
  simp [errorKind]

theorem isValidSignature_eq_true (lib : Lib) (address : Address) (signature : List Byte) :
    isValidSignature lib address signature = true ↔
      ∃ pubKey, lib.SigToPub (lib.Sum256 serverMessage) signature = .ok pubKey ∧
        lib.PubkeyToAddress pubKey = address := by
  cases h : lib.SigToPub (lib.Sum256 serverMessage) signature with
  | error e => simp [isValidSignature, h]
  | ok pubKey => simp [isValidSignature, h]

theorem isValidSignature_eq_false (lib : Lib) (address : Address) (signature : List Byte) :
    isValidSignature lib address signature = false ↔
      (∃ e, lib.SigToPub (lib.Sum256 serverMessage) signature = .error e) ∨
      (∃ pubKey, lib.SigToPub (lib.Sum256 serverMessage) signature = .ok pubKey ∧
        lib.PubkeyToAddress pubKey ≠ address) := by
  cases h : lib.SigToPub (lib.Sum256 serverMessage) signature with
  | error e => simp [isValidSignature, h]
  | ok pubKey => simp [isValidSignature, h]

theorem GetAccount_decode_error (lib : Lib) (s : Server) (client : EthClient)
    (req : GetAccountRequest) (err : GoError) (hclient : s.client = some client)
    (hdecode : lib.DecodeString req.CryptoSignature = .error err) :
    GetAccount lib s req =
      ([], .error (.errorf "failed to decode signature: %v" [err.Error])) := by
  simp [GetAccount, hclient, hdecode]

theorem GetAccount_invalid (lib : Lib) (s : Server) (client : EthClient)
    (req : GetAccountRequest) (signature : List Byte) (hclient : s.client = some client)
    (hdecode : lib.DecodeString req.CryptoSignature = .ok signature)
    (hbad : isValidSignature lib (lib.HexToAddress req.EthereumAddress) signature = false) :
    GetAccount lib s req =
      ([.isValidSignature (lib.HexToAddress req.EthereumAddress) signature],
        .error (.errorf "invalid signature" [])) := by
  simp [GetAccount, hclient, hdecode, hbad]

theorem GetAccount_valid (lib : Lib) (s : Server) (client : EthClient)
    (req : GetAccountRequest) (signature : List Byte) (hclient : s.client = some client)
    (hdecode : lib.DecodeString req.CryptoSignature = .ok signature)
    (hvalid : isValidSignature lib (lib.HexToAddress req.EthereumAddress) signature = true) :
    GetAccount lib s req =
      match GetTokenBalance client (lib.HexToAddress fixedToken)
          (lib.HexToAddress req.EthereumAddress) with
      | (c₁, .error err) =>
        (.isValidSignature (lib.HexToAddress req.EthereumAddress) signature :: c₁,
          .error (.errorf "failed to get token balance: %v" [err.Error]))
      | (c₁, .ok gasTokenBalance) =>
        match GetNonce client (lib.HexToAddress req.EthereumAddress) with
        | (c₂, .error err) =>
          (.isValidSignature (lib.HexToAddress req.EthereumAddress) signature :: (c₁ ++ c₂),
            .error (.errorf "failed to get nonce: %v" [err.Error]))
        | (c₂, .ok walletNonce) =>
          (.isValidSignature (lib.HexToAddress req.EthereumAddress) signature :: (c₁ ++ c₂),
            .ok ⟨BigInt.String gasTokenBalance, walletNonce⟩) := by
  simp [GetAccount, hclient, hdecode, hvalid]


theorem digitChar_value (k : Nat) (hk : k < 10) :
    (Nat.digitChar k).toNat - 48 = k ∧ (Nat.digitChar k).isDigit = true := by
  interval_cases k <;> exact ⟨by decide, by decide⟩

theorem toDigitsCore_decimal : ∀ fuel n ds, n < fuel →
    ∃ p, Nat.toDigitsCore 10 fuel n ds = p ++ ds ∧
      p.foldl (fun acc c => acc * 10 + (c.toNat - 48)) 0 = n ∧ ∀ c ∈ p, c.isDigit = true := by
  intro fuel
  induction fuel with
  | zero => intro n ds h; omega
  | succ fuel ih =>
    intro n ds h
    have hd := digitChar_value (n % 10) (Nat.mod_lt _ (by decide))
    unfold Nat.toDigitsCore
    by_cases h0 : n / 10 = 0
    · refine ⟨[Nat.digitChar (n % 10)], by simp [h0], ?_, by simpa using hd.2⟩
      simp only [List.foldl_cons, List.foldl_nil, hd.1]
      omega
    · obtain ⟨p, hp, hv, hdig⟩ := ih (n / 10) (Nat.digitChar (n % 10) :: ds) (by omega)
      refine ⟨p ++ [Nat.digitChar (n % 10)], by simp [h0, hp], ?_, ?_⟩
      · rw [List.foldl_append, hv]
        simp only [List.foldl_cons, List.foldl_nil, hd.1]
        omega
      · intro c hc
        rcases List.mem_append.mp hc with h | h
        · exact hdig c h
        · simp only [List.mem_singleton] at h
          rw [h]
          exact hd.2

theorem BigInt_String_decimal (b : Nat) :
    decimalValue (BigInt.String b) = b ∧ ∀ c ∈ (BigInt.String b).data, c.isDigit = true := by
  obtain ⟨p, hp, hv, hdig⟩ := toDigitsCore_decimal (b + 1) b [] (by omega)
  have hdata : (BigInt.String b).data = p := by
    simp [BigInt.String, Nat.repr, Nat.toDigits, hp, List.asString]
  unfold decimalValue
  rw [hdata]
  exact ⟨hv, hdig⟩

/-- C8: for every claimed address and every signature byte string, of any length,
`isValidSignature` is a total boolean function: it is true exactly when recovery
of a public key from the signature against the hash of the fixed message
`some message` succeeds and the address of the recovered key equals the claimed
address, and false exactly when recovery fails or the addresses differ. -/
theorem isValidSignature_total_spec (lib : Lib) (address : Address) (signature : List Byte) :
    (isValidSignature lib address signature = true ∨
      isValidSignature lib address signature = false) ∧
    (isValidSignature lib address signature = true ↔
      ∃ pubKey, lib.SigToPub (lib.Sum256 (bytesOf "some message")) signature = .ok pubKey ∧
        lib.PubkeyToAddress pubKey = address) ∧
    (isValidSignature lib address signature = false ↔
      (∃ e, lib.SigToPub (lib.Sum256 (bytesOf "some message")) signature = .error e) ∨
      (∃ pubKey, lib.SigToPub (lib.Sum256 (bytesOf "some message")) signature = .ok pubKey ∧
        lib.PubkeyToAddress pubKey ≠ address)) := by
  refine ⟨?_, isValidSignature_eq_true lib address signature,
    isValidSignature_eq_false lib address signature⟩
  cases isValidSignature lib address signature <;> simp

/-- C3: on a server whose client handle is set, for every request whose signature
text decodes from base64 but whose signature either fails public-key recovery
against the hash of the fixed message or recovers to an address other than the
claimed one, `GetAccount` returns the error `invalid signature`, of kind
`Unauthenticated`, and no response; the ledger is not called. -/
theorem GetAccount_unauthenticated (lib : Lib) (s : Server) (client : EthClient)
    (req : GetAccountRequest) (signature : List Byte)
    (hclient : s.client = some client)
    (hdecode : lib.DecodeString req.CryptoSignature = .ok signature)
    (hbad : (∃ e, lib.SigToPub (lib.Sum256 serverMessage) signature = .error e) ∨
      (∃ pubKey, lib.SigToPub (lib.Sum256 serverMessage) signature = .ok pubKey ∧
        lib.PubkeyToAddress pubKey ≠ lib.HexToAddress req.EthereumAddress)) :
    (GetAccount lib s req).2 = .error (.errorf "invalid signature" []) ∧
    errorKind (.errorf "invalid signature" []) = some .Unauthenticated ∧
    (∀ resp, (GetAccount lib s req).2 ≠ .ok resp) ∧
    (GetAccount lib s req).1 =
      [.isValidSignature (lib.HexToAddress req.EthereumAddress) signature] := by
  have h := GetAccount_invalid lib s client req signature hclient hdecode
    ((isValidSignature_eq_false lib _ signature).mpr hbad)
  refine ⟨by rw [h], errorKind_invalid [], ?_, by rw [h]⟩
  intro resp hr
  rw [h] at hr
  cases hr

/-- Witness of C3: an empty signature text decodes to no bytes, recovery fails on
it, and the request is refused as unauthenticated. -/
theorem GetAccount_unauthenticated_witness :
    refLib.DecodeString "" = .ok [] ∧
    refLib.SigToPub (refLib.Sum256 serverMessage) [] = .error (.text "invalid signature length") ∧
    (GetAccount refLib refServer ⟨refAddressText, ""⟩).2 =
      .error (.errorf "invalid signature" []) :=
  ⟨by decide, by decide,
    (GetAccount_unauthenticated refLib refServer refLedger ⟨refAddressText, ""⟩ [] rfl
      (by decide) (Or.inl ⟨.text "invalid signature length", by decide⟩)).1⟩

/-- C4: on a server whose client handle is set, for every request whose signature
text does not decode from base64, `GetAccount` returns the error
`failed to decode signature`, of kind `InvalidEncoding`, and no response, having
made no call at all: neither the verifier nor the ledger was reached. -/
theorem GetAccount_invalidEncoding (lib : Lib) (s : Server) (client : EthClient)
    (req : GetAccountRequest) (err : GoError)
    (hclient : s.client = some client)
    (hdecode : lib.DecodeString req.CryptoSignature = .error err) :
    (GetAccount lib s req).2 =
      .error (.errorf "failed to decode signature: %v" [err.Error]) ∧
    errorKind (.errorf "failed to decode signature: %v" [err.Error]) =
      some .InvalidEncoding ∧
    (∀ resp, (GetAccount lib s req).2 ≠ .ok resp) ∧
    (GetAccount lib s req).1 = [] := by
  have h := GetAccount_decode_error lib s client req err hclient hdecode
  refine ⟨by rw [h], errorKind_decode _, ?_, by rw [h]⟩
  intro resp hr
  rw [h] at hr
  cases hr

/-- Witness of C4: the text `!!!` is not base64. -/
theorem GetAccount_invalidEncoding_witness :
    refLib.DecodeString "!!!" = .error corruptInput ∧
    GetAccount refLib refServer ⟨refAddressText, "!!!"⟩ =
      ([], .error (.errorf "failed to decode signature: %v" ["illegal base64 data"])) :=
  ⟨by decide,
    Prod.ext
      (GetAccount_invalidEncoding refLib refServer refLedger ⟨refAddressText, "!!!"⟩
        corruptInput rfl (by decide)).2.2.2
      (GetAccount_invalidEncoding refLib refServer refLedger ⟨refAddressText, "!!!"⟩
        corruptInput rfl (by decide)).1⟩

/-- C5: on a server whose client handle is set, for every request whose signature
decodes and verifies for the claimed address, when the ledger binds the fixed
token, returns balance `b` for the fixed token and the claimed address and
pending nonce `n` for the claimed address, `GetAccount` returns the decimal text
of `b` and the nonce `n`; the token it queries is the constant
`0xdAC17F958D2ee523a2206206994597C13D831ec7`, whatever the request, and the
ledger calls are one binding, one balance read and one nonce read. The balance
text is made of decimal digits only and denotes `b`. -/
theorem GetAccount_success (lib : Lib) (s : Server) (client : EthClient)
    (req : GetAccountRequest) (signature : List Byte) (b n : Nat)
    (hclient : s.client = some client)
    (hdecode : lib.DecodeString req.CryptoSignature = .ok signature)
    (hvalid : isValidSignature lib (lib.HexToAddress req.EthereumAddress) signature = true)
    (hbind : client.NewErc20
      (lib.HexToAddress "0xdAC17F958D2ee523a2206206994597C13D831ec7") = none)
    (hbal : client.BalanceOf (lib.HexToAddress "0xdAC17F958D2ee523a2206206994597C13D831ec7")
      (lib.HexToAddress req.EthereumAddress) = .ok b)
    (hnonce : client.PendingNonceAt (lib.HexToAddress req.EthereumAddress) = .ok n) :
    GetAccount lib s req =
      ([.isValidSignature (lib.HexToAddress req.EthereumAddress) signature,
        .NewErc20 (lib.HexToAddress "0xdAC17F958D2ee523a2206206994597C13D831ec7"),
        .BalanceOf (lib.HexToAddress "0xdAC17F958D2ee523a2206206994597C13D831ec7")
          (lib.HexToAddress req.EthereumAddress),
        .PendingNonceAt (lib.HexToAddress req.EthereumAddress)],
       .ok ⟨BigInt.String b, n⟩) ∧
    decimalValue (BigInt.String b) = b ∧
    (∀ c ∈ (BigInt.String b).data, c.isDigit = true) := by
  refine ⟨?_, BigInt_String_decimal b⟩
  rw [GetAccount_valid lib s client req signature hclient hdecode hvalid]
  simp [GetTokenBalance, GetNonce, fixedToken, hbind, hbal, hnonce]

/-- Witness of C5: balance 1000000 and nonce 7 give the text `1000000` and 7. -/
theorem GetAccount_success_witness :
    (GetAccount refLib refServer ⟨refAddressText, refSignatureText⟩).2 =
      .ok ⟨"1000000", 7⟩ :=
  (congrArg Prod.snd
    (GetAccount_success refLib refServer refLedger ⟨refAddressText, refSignatureText⟩
      refSignature 1000000 7 rfl (by decide) (by decide) (by decide) (by decide)
      (by decide)).1).trans (by decide)


/-- C7: on a server whose client handle is set, for every request that passes
signature decoding and verification, if the balance resolver fails or the nonce
resolver fails then `GetAccount` returns an error of kind `UpstreamUnavailable`
and no response; the calls it made are an initial part of: verification, binding
of the fixed token, one balance read, one nonce read, in this order, so each
resolver ran at most once and the balance resolver first; and when the balance
resolver fails no nonce read is made. -/
theorem GetAccount_upstreamUnavailable (lib : Lib) (s : Server) (client : EthClient)
    (req : GetAccountRequest) (signature : List Byte)
    (hclient : s.client = some client)
    (hdecode : lib.DecodeString req.CryptoSignature = .ok signature)
    (hvalid : isValidSignature lib (lib.HexToAddress req.EthereumAddress) signature = true)
    (hfail :
      (∃ e, (GetTokenBalance client (lib.HexToAddress fixedToken)
        (lib.HexToAddress req.EthereumAddress)).2 = .error e) ∨
      (∃ e, (GetNonce client (lib.HexToAddress req.EthereumAddress)).2 = .error e)) :
    (∃ e, (GetAccount lib s req).2 = .error e ∧ errorKind e = some .UpstreamUnavailable) ∧
    (∀ resp, (GetAccount lib s req).2 ≠ .ok resp) ∧
    (∃ k, (GetAccount lib s req).1 = List.take k
      [.isValidSignature (lib.HexToAddress req.EthereumAddress) signature,
        .NewErc20 (lib.HexToAddress fixedToken),
        .BalanceOf (lib.HexToAddress fixedToken) (lib.HexToAddress req.EthereumAddress),
        .PendingNonceAt (lib.HexToAddress req.EthereumAddress)]) ∧
    ((∃ e, (GetTokenBalance client (lib.HexToAddress fixedToken)
        (lib.HexToAddress req.EthereumAddress)).2 = .error e) →
      ∀ a, Call.PendingNonceAt a ∉ (GetAccount lib s req).1) := by
  rw [GetAccount_valid lib s client req signature hclient hdecode hvalid]
  unfold GetTokenBalance GetNonce at *
  cases hb : client.NewErc20 (lib.HexToAddress fixedToken) with
  | some e₀ =>
    simp only [hb]
    exact ⟨⟨_, rfl, errorKind_balance _⟩, by simp, ⟨2, rfl⟩, by simp⟩
  | none =>
    cases hq : client.BalanceOf (lib.HexToAddress fixedToken)
        (lib.HexToAddress req.EthereumAddress) with
    | error e₁ =>
      simp only [hb, hq]
      exact ⟨⟨_, rfl, errorKind_balance _⟩, by simp, ⟨3, rfl⟩, by simp⟩
    | ok bal =>
      cases hn : client.PendingNonceAt (lib.HexToAddress req.EthereumAddress) with
      | error e₂ =>
        simp only [hb, hq, hn]
        exact ⟨⟨_, rfl, errorKind_nonce _⟩, by simp, ⟨4, rfl⟩, by simp⟩
      | ok n =>
        simp [hb, hq, hn] at hfail

/-- The balance resolver fails on the concrete ledger for the holder `0x00..04`. -/
theorem refLedger_balance_fails :
    (GetTokenBalance refLedger (refLib.HexToAddress fixedToken)
      (refLib.HexToAddress "0x0000000000000000000000000000000000000004")).2 =
      .error (.errorf "failed to retrieve balance: %v" ["execution reverted"]) := by
  decide

/-- Witness of C7: one request whose balance read fails, one whose nonce read fails. -/
theorem GetAccount_upstreamUnavailable_witness :
    (∀ a, Call.PendingNonceAt a ∉
      (GetAccount refLib refServer ⟨"0x0000000000000000000000000000000000000004",
        "AAAAAAAAAAAAAAAAAAAAAAAAAAAAAAAAAAAAAAAAAAEAAAAAAAAAAAAAAAAAAAAAAAAAAAAAAAAAAAAAAAAAAwE="⟩).1) ∧
    (∃ e, (GetAccount refLib refServer ⟨"0x00000000000000000000000000000000000000a1",
        "AAAAAAAAAAAAAAAAAAAAAAAAAAAAAAAAAAAAAAAAAKAAAAAAAAAAAAAAAAAAAAAAAAAAAAAAAAAAAAAAAAAAAQE="⟩).2
        = .error e ∧ errorKind e = some .UpstreamUnavailable) :=
  ⟨(GetAccount_upstreamUnavailable refLib refServer refLedger
      ⟨"0x0000000000000000000000000000000000000004",
        "AAAAAAAAAAAAAAAAAAAAAAAAAAAAAAAAAAAAAAAAAAEAAAAAAAAAAAAAAAAAAAAAAAAAAAAAAAAAAAAAAAAAAwE="⟩
      (bigEndian 32 1 ++ bigEndian 32 3 ++ [1]) rfl (by decide) (by decide)
      (Or.inl ⟨_, refLedger_balance_fails⟩)).2.2.2 ⟨_, refLedger_balance_fails⟩,
   (GetAccount_upstreamUnavailable refLib refServer refLedger
      ⟨"0x00000000000000000000000000000000000000a1",
        "AAAAAAAAAAAAAAAAAAAAAAAAAAAAAAAAAAAAAAAAAKAAAAAAAAAAAAAAAAAAAAAAAAAAAAAAAAAAAAAAAAAAAQE="⟩
      (bigEndian 32 160 ++ bigEndian 32 1 ++ [1]) rfl (by decide) (by decide)
      (Or.inr ⟨.errorf "failed to get nonce: %v" ["connection refused"], by decide⟩)).1⟩

/-- C9: the client and the server use the same plaintext, hence the same hash of
it; so for every private key with which signing succeeds, if recovery from that
signature against that hash yields the public key of the signer, base64 decoding
undoes the encoding of the signature and the address text converts back to the
address, then the request the client builds decodes on the server to the
signature and `isValidSignature` is true for it: `GetAccount` reaches the
resolvers with the address of the signer. -/
theorem client_request_verifies (lib : Lib) (s : Server) (client : EthClient)
    (privateKey : PrivateKey) (signature : List Byte)
    (hclient : s.client = some client)
    (hsign : lib.Sign (lib.Sum256 clientMessage) privateKey = .ok signature)
    (hrecover : lib.SigToPub (lib.Sum256 clientMessage) signature = .ok privateKey.PublicKey)
    (hbase64 : lib.DecodeString (lib.EncodeToString signature) = .ok signature)
    (hhex : lib.HexToAddress (lib.Hex (lib.PubkeyToAddress privateKey.PublicKey)) =
      lib.PubkeyToAddress privateKey.PublicKey) :
    clientMessage = serverMessage ∧
    lib.Sum256 clientMessage = lib.Sum256 serverMessage ∧
    ∃ req, clientRequest lib privateKey = .ok req ∧
      lib.HexToAddress req.EthereumAddress = lib.PubkeyToAddress privateKey.PublicKey ∧
      lib.DecodeString req.CryptoSignature = .ok signature ∧
      isValidSignature lib (lib.HexToAddress req.EthereumAddress) signature = true ∧
      (∀ e, (GetAccount lib s req).2 = .error e →
        errorKind e = some .UpstreamUnavailable) := by
  refine ⟨rfl, rfl, ⟨lib.Hex (lib.PubkeyToAddress privateKey.PublicKey),
    lib.EncodeToString signature⟩, ?_, hhex, hbase64, ?_, ?_⟩
  · simp [clientRequest, hsign]
  · rw [isValidSignature_eq_true]
    exact ⟨privateKey.PublicKey, hrecover, hhex.symm⟩
  · have hv : isValidSignature lib (lib.HexToAddress
        (lib.Hex (lib.PubkeyToAddress privateKey.PublicKey))) signature = true := by
      rw [isValidSignature_eq_true]
      exact ⟨privateKey.PublicKey, hrecover, hhex.symm⟩
    intro e he
    rw [GetAccount_valid lib s client _ signature hclient hbase64 hv] at he
    revert he
    cases GetTokenBalance client (lib.HexToAddress fixedToken)
        (lib.HexToAddress (lib.Hex (lib.PubkeyToAddress privateKey.PublicKey))) with
    | mk c₁ r₁ =>
      cases r₁ with
      | error e₁ =>
        intro he
        simp only [Except.error.injEq] at he
        rw [← he]
        exact errorKind_balance _
      | ok bal =>
        cases GetNonce client
            (lib.HexToAddress (lib.Hex (lib.PubkeyToAddress privateKey.PublicKey))) with
        | mk c₂ r₂ =>
          cases r₂ with
          | error e₂ =>
            intro he
            simp only [Except.error.injEq] at he
            rw [← he]
            exact errorKind_nonce _
          | ok n =>
            intro he
            cases he


/-- Witness of C9: the request built from the concrete key. -/
theorem client_request_verifies_witness :
    clientRequest refLib refKey = .ok ⟨refAddressText, refSignatureText⟩ ∧
    refLib.DecodeString refSignatureText = .ok refSignature ∧
    isValidSignature refLib (refLib.HexToAddress refAddressText) refSignature = true := by
  obtain ⟨_, _, req, h₁, _, h₃, h₄, _⟩ :=
    client_request_verifies refLib refServer refLedger refKey refSignature rfl (by decide)
      (by decide) (by decide) (by decide)
  have h₀ : clientRequest refLib refKey = .ok ⟨refAddressText, refSignatureText⟩ := by decide
  rw [h₀] at h₁
  cases h₁
  exact ⟨h₀, h₃, h₄⟩

/-! ## The streaming handler -/

theorem sendUntilError_cons (sendErr : Nat → Option GoError) (k : Nat)
    (r : GetAccountsResponse) (rs : List GetAccountsResponse) :
    sendUntilError sendErr k (r :: rs) =
      match sendErr k with
      | some e => ([], some e)
      | none =>
        (r :: (sendUntilError sendErr (k + 1) rs).1, (sendUntilError sendErr (k + 1) rs).2) := by
  rfl

theorem sendUntilError_none (sendErr : Nat → Option GoError) (rs : List GetAccountsResponse) :
    ∀ k, (sendUntilError sendErr k rs).2 = none → (sendUntilError sendErr k rs).1 = rs := by
  induction rs with
  | nil => intro k _; rfl
  | cons r rs ih =>
    intro k h
    unfold sendUntilError at h ⊢
    cases hk : sendErr k with
    | some e => simp [hk] at h
    | none =>
      simp only [hk] at h ⊢
      rw [ih (k + 1) h]

theorem sendUntilError_append (sendErr : Nat → Option GoError)
    (xs ys : List GetAccountsResponse) :
    ∀ k, sendUntilError sendErr k (xs ++ ys) =
      match (sendUntilError sendErr k xs).2 with
      | some e => ((sendUntilError sendErr k xs).1, some e)
      | none => (xs ++ (sendUntilError sendErr (k + xs.length) ys).1,
          (sendUntilError sendErr (k + xs.length) ys).2) := by
  induction xs with
  | nil => intro k; simp [sendUntilError]
  | cons x xs ih =>
    intro k
    rw [List.cons_append, sendUntilError_cons, sendUntilError_cons]
    cases hk : sendErr k with
    | some e => simp
    | none =>
      simp only []
      rw [ih (k + 1)]
      cases h : (sendUntilError sendErr (k + 1) xs).2 with
      | some e => simp
      | none =>
        have : k + 1 + xs.length = k + (xs.length + 1) := by omega
        simp [this]

theorem sendUntilError_all (sendErr : Nat → Option GoError) (rs : List GetAccountsResponse) :
    ∀ k, (∀ j, j < rs.length → sendErr (k + j) = none) →
      sendUntilError sendErr k rs = (rs, none) := by
  induction rs with
  | nil => intro k _; rfl
  | cons r rs ih =>
    intro k h
    have h0 : sendErr k = none := by simpa using h 0 (by simp)
    have hrest : ∀ j, j < rs.length → sendErr (k + 1 + j) = none := by
      intro j hj
      have := h (j + 1) (by simpa using hj)
      rwa [show k + (j + 1) = k + 1 + j by omega] at this
    simp [sendUntilError, h0, ih (k + 1) hrest]

theorem sendUntilError_first (sendErr : Nat → Option GoError) (rs : List GetAccountsResponse)
    (e : GoError) :
    ∀ k i, i < rs.length → (∀ j, j < i → sendErr (k + j) = none) →
      sendErr (k + i) = some e → sendUntilError sendErr k rs = (rs.take i, some e) := by
  induction rs with
  | nil => intro k i hi; simp at hi
  | cons r rs ih =>
    intro k i hi hbefore hat
    cases i with
    | zero =>
      have h0 : sendErr k = some e := by simpa using hat
      simp [sendUntilError, h0]
    | succ i =>
      have h0 : sendErr k = none := by simpa using hbefore 0 (by omega)
      have hi' : i < rs.length := by simpa using hi
      have hb' : ∀ j, j < i → sendErr (k + 1 + j) = none := by
        intro j hj
        have := hbefore (j + 1) (by omega)
        rwa [show k + (j + 1) = k + 1 + j by omega] at this
      have hat' : sendErr (k + 1 + i) = some e := by
        rwa [show k + (i + 1) = k + 1 + i by omega] at hat
      simp [sendUntilError, h0, ih (k + 1) i hi' hb' hat']


theorem getERC20Balance_ok (lib : Lib) (client : EthClient) (b : Address → Address → Nat)
    (hbind : ∀ t, client.NewErc20 t = none) (hbal : ∀ t a, client.BalanceOf t a = .ok (b t a))
    (address tokenAddress : String) :
    getERC20Balance lib (some client) address tokenAddress =
      .ok (BigInt.String (b (lib.HexToAddress tokenAddress) (lib.HexToAddress address))) := by
  simp [getERC20Balance, hbind, hbal]

theorem owed_cons (lib : Lib) (b : Address → Address → Nat) (m : GetAccountsRequest)
    (ms : List GetAccountsRequest) :
    owed lib b (m :: ms) =
      m.EthereumAddresses.map (fun a =>
        (⟨a, BigInt.String (b (lib.HexToAddress m.Erc20TokenAddress) (lib.HexToAddress a))⟩ :
          GetAccountsResponse)) ++ owed lib b ms := by
  simp [owed]

theorem range_eq (lib : Lib) (client : EthClient) (b : Address → Address → Nat)
    (hbind : ∀ t, client.NewErc20 t = none) (hbal : ∀ t a, client.BalanceOf t a = .ok (b t a))
    (sendErr : Nat → Option GoError) (tokenAddress : String) (addrs : List String) :
    ∀ k, GetAccounts.range lib (some client) sendErr tokenAddress addrs k =
      ((sendUntilError sendErr k (addrs.map fun a =>
          ⟨a, BigInt.String (b (lib.HexToAddress tokenAddress) (lib.HexToAddress a))⟩)).1,
        (sendUntilError sendErr k (addrs.map fun a =>
          ⟨a, BigInt.String (b (lib.HexToAddress tokenAddress) (lib.HexToAddress a))⟩)).2.map
          fun e => Exit.returned (some e)) := by
  induction addrs with
  | nil => intro k; rfl
  | cons a rest ih =>
    intro k
    rw [List.map_cons, sendUntilError_cons]
    unfold GetAccounts.range
    rw [getERC20Balance_ok lib client b hbind hbal]
    cases hk : sendErr k with
    | some e => rfl
    | none => simp only [ih (k + 1)]

theorem loop_eq (lib : Lib) (client : EthClient) (b : Address → Address → Nat)
    (hbind : ∀ t, client.NewErc20 t = none) (hbal : ∀ t a, client.BalanceOf t a = .ok (b t a))
    (sendErr : Nat → Option GoError) (closing : GoError) (msgs : List GetAccountsRequest) :
    ∀ k, GetAccounts.loop lib (some client) sendErr closing msgs k =
      ((sendUntilError sendErr k (owed lib b msgs)).1,
        streamExit closing (sendUntilError sendErr k (owed lib b msgs)).2) := by
  induction msgs with
  | nil => intro k; rfl
  | cons m ms ih =>
    intro k
    rw [owed_cons, sendUntilError_append]
    unfold GetAccounts.loop
    rw [range_eq lib client b hbind hbal]
    cases h : (sendUntilError sendErr k (m.EthereumAddresses.map fun a =>
        (⟨a, BigInt.String (b (lib.HexToAddress m.Erc20TokenAddress) (lib.HexToAddress a))⟩ :
          GetAccountsResponse))).2 with
    | some e => simp [streamExit]
    | none =>
      have h₁ := sendUntilError_none sendErr _ k h
      simp only [Option.map_none', h₁, ih, List.length_map]

theorem GetAccounts_eq (lib : Lib) (s : Server) (client : EthClient) (stream : ServerStream)
    (b : Address → Address → Nat) (hclient : s.client = some client)
    (hbind : ∀ t, client.NewErc20 t = none) (hbal : ∀ t a, client.BalanceOf t a = .ok (b t a)) :
    GetAccounts lib s stream =
      ((sendUntilError stream.sendErr 0 (owed lib b stream.inbound)).1,
        streamExit stream.closing (sendUntilError stream.sendErr 0 (owed lib b stream.inbound)).2) := by
  unfold GetAccounts
  rw [hclient, loop_eq lib client b hbind hbal]



theorem owed_addresses (lib : Lib) (b : Address → Address → Nat)
    (msgs : List GetAccountsRequest) :
    (owed lib b msgs).map (fun r => r.EthereumAddress) =
      msgs.flatMap fun m => m.EthereumAddresses := by
  induction msgs with
  | nil => rfl
  | cons m ms ih =>
    rw [owed_cons, List.map_append, ih, List.flatMap_cons, List.map_map]
    congr 1
    exact List.map_id _

theorem owed_length (lib : Lib) (b : Address → Address → Nat)
    (msgs : List GetAccountsRequest) :
    (owed lib b msgs).length = (msgs.map fun m => m.EthereumAddresses.length).sum := by
  induction msgs with
  | nil => rfl
  | cons m ms ih =>
    rw [owed_cons, List.length_append, ih, List.length_map, List.map_cons, List.sum_cons]

/-- C1: on a server whose client handle is set, for every finite sequence of
inbound messages and every ledger that succeeds on every lookup, with every
`Send` succeeding, `GetAccounts` emits exactly one response per pair of address
and token: the emitted sequence is the concatenation, in arrival order of the
messages, of the address list of each message in its given order, each response
carrying the address as supplied and the decimal text of the balance the ledger
returned for the token and the address; after `io.EOF` the call returns nil. -/
theorem GetAccounts_one_response_per_pair (lib : Lib) (s : Server) (client : EthClient)
    (stream : ServerStream) (b : Address → Address → Nat)
    (hclient : s.client = some client)
    (hbind : ∀ t, client.NewErc20 t = none)
    (hbal : ∀ t a, client.BalanceOf t a = .ok (b t a))
    (hsend : ∀ k, stream.sendErr k = none) :
    (GetAccounts lib s stream).1 =
      (stream.inbound.flatMap fun m =>
        m.EthereumAddresses.map fun a =>
          (⟨a, BigInt.String (b (lib.HexToAddress m.Erc20TokenAddress) (lib.HexToAddress a))⟩ :
            GetAccountsResponse)) ∧
    (GetAccounts lib s stream).1.map (fun r => r.EthereumAddress) =
      (stream.inbound.flatMap fun m => m.EthereumAddresses) ∧
    (GetAccounts lib s stream).1.length =
      (stream.inbound.map fun m => m.EthereumAddresses.length).sum ∧
    (stream.closing = .EOF → (GetAccounts lib s stream).2 = .returned none) := by
  have h := GetAccounts_eq lib s client stream b hclient hbind hbal
  rw [sendUntilError_all stream.sendErr _ 0 (fun j _ => hsend (0 + j))] at h
  rw [h]
  refine ⟨rfl, owed_addresses lib b _, owed_length lib b _, ?_⟩
  intro hc
  simp [streamExit, hc]

/-- Witness of C1: one message with addresses A, B, C yields three responses in
the order A, B, C. -/
theorem GetAccounts_one_response_per_pair_witness :
    (GetAccounts refLib ⟨some okLedger⟩ (refStream fun _ => none)).1 =
      [⟨"0x00000000000000000000000000000000000000a1", "2584"⟩,
       ⟨"0x00000000000000000000000000000000000000b2", "2601"⟩,
       ⟨"0x00000000000000000000000000000000000000c3", "2618"⟩] :=
  (GetAccounts_one_response_per_pair refLib ⟨some okLedger⟩ okLedger
    (refStream fun _ => none) (fun t a => t.bytes.sum + a.bytes.sum) rfl (fun _ => rfl)
    (fun _ _ => rfl) (fun _ => rfl)).1.trans (by decide)

/-- C10: on a server whose client handle is set, for every inbound stream and
every ledger that succeeds, `GetAccounts` returns nil exactly when `Recv` ends
with `io.EOF` and every `Send` of the owed responses succeeds, and then every
received message was answered in full; when every `Send` succeeds and `Recv`
ends with another error, that error is returned as it is after the owed
responses; and when the k-th `Send` is the first to fail, its error is returned
as it is and exactly the k responses before it were emitted. -/
theorem GetAccounts_termination (lib : Lib) (s : Server) (client : EthClient)
    (stream : ServerStream) (b : Address → Address → Nat)
    (hclient : s.client = some client)
    (hbind : ∀ t, client.NewErc20 t = none)
    (hbal : ∀ t a, client.BalanceOf t a = .ok (b t a)) :
    ((GetAccounts lib s stream).2 = .returned none ↔
      stream.closing = .EOF ∧
        ∀ k, k < (owed lib b stream.inbound).length → stream.sendErr k = none) ∧
    ((∀ k, k < (owed lib b stream.inbound).length → stream.sendErr k = none) →
      GetAccounts lib s stream =
        (owed lib b stream.inbound,
          if stream.closing = .EOF then .returned none else .returned (some stream.closing))) ∧
    (∀ k e, k < (owed lib b stream.inbound).length →
      (∀ j, j < k → stream.sendErr j = none) → stream.sendErr k = some e →
      GetAccounts lib s stream = ((owed lib b stream.inbound).take k, .returned (some e))) := by
  have h := GetAccounts_eq lib s client stream b hclient hbind hbal
  have hall : (∀ k, k < (owed lib b stream.inbound).length → stream.sendErr k = none) →
      GetAccounts lib s stream =
        (owed lib b stream.inbound,
          if stream.closing = .EOF then .returned none
          else .returned (some stream.closing)) := by
    intro hs
    rw [h, sendUntilError_all stream.sendErr _ 0 (fun j hj => by simpa using hs j hj)]
    rfl
  have hfirst : ∀ k e, k < (owed lib b stream.inbound).length →
      (∀ j, j < k → stream.sendErr j = none) → stream.sendErr k = some e →
      GetAccounts lib s stream = ((owed lib b stream.inbound).take k, .returned (some e)) := by
    intro k e hk hbefore hat
    rw [h, sendUntilError_first stream.sendErr _ e 0 k hk
      (fun j hj => by simpa using hbefore j hj) (by simpa using hat)]
    rfl
  refine ⟨⟨?_, ?_⟩, hall, hfirst⟩
  · intro hnil
    by_cases hex : ∃ k, k < (owed lib b stream.inbound).length ∧ stream.sendErr k ≠ none
    · exfalso
      have hk := Nat.find_spec hex
      have hmin : ∀ j, j < Nat.find hex → stream.sendErr j = none := by
        intro j hj
        by_contra hne
        exact Nat.find_min hex hj ⟨Nat.lt_trans hj hk.1, hne⟩
      obtain ⟨e, he⟩ := Option.ne_none_iff_exists'.mp hk.2
      rw [hfirst (Nat.find hex) e hk.1 hmin he] at hnil
      simp at hnil
    · have hs : ∀ k, k < (owed lib b stream.inbound).length → stream.sendErr k = none := by
        intro k hk
        by_contra hne
        exact hex ⟨k, hk, hne⟩
      refine ⟨?_, hs⟩
      rw [hall hs] at hnil
      by_contra hc
      simp [hc] at hnil
  · rintro ⟨hc, hs⟩
    rw [hall hs]
    simp [hc]

/-- Witness of C10: the second `Send` fails; its error is returned and only the
first response was emitted. -/
theorem GetAccounts_termination_witness :
    GetAccounts refLib ⟨some okLedger⟩
        (refStream fun k => if k = 1 then some (.text "transport is closing") else none) =
      ([⟨"0x00000000000000000000000000000000000000a1", "2584"⟩],
        .returned (some (.text "transport is closing"))) :=
  ((GetAccounts_termination refLib ⟨some okLedger⟩ okLedger
    (refStream fun k => if k = 1 then some (.text "transport is closing") else none)
    (fun t a => t.bytes.sum + a.bytes.sum) rfl (fun _ => rfl) (fun _ _ => rfl)).2.2 1
      (.text "transport is closing") (by decide) (by decide) (by decide)).trans (by decide)


/-- C2: a stream whose message lists A, B, C, on a ledger that answers for A and
fails for B. The response for A was emitted and none for C, but the call does
not return an error: `getERC20Balance` reaches `log.Fatalf` and the process
exits, where the resolver of the unary path returns a wrapped error. -/
theorem GetAccounts_lookup_failure_exits :
    refLedger.BalanceOf (refLib.HexToAddress fixedToken)
        (refLib.HexToAddress "0x00000000000000000000000000000000000000a1") = .ok 250 ∧
    refLedger.BalanceOf (refLib.HexToAddress fixedToken)
        (refLib.HexToAddress "0x00000000000000000000000000000000000000b2") =
      .error (.text "execution reverted") ∧
    GetAccounts refLib refServer (refStream fun _ => none) =
      ([⟨"0x00000000000000000000000000000000000000a1", "250"⟩],
        .fatal "Failed to retrieve token balance: %v" ["execution reverted"]) ∧
    (GetTokenBalance refLedger (refLib.HexToAddress fixedToken)
        (refLib.HexToAddress "0x00000000000000000000000000000000000000b2")).2 =
      .error (.errorf "failed to retrieve balance: %v" ["execution reverted"]) := by
  decide

theorem getERC20Balance_congr (lib : Lib) (client : Option EthClient) (a a' t t' : String)
    (ha : lib.HexToAddress a' = lib.HexToAddress a)
    (ht : lib.HexToAddress t' = lib.HexToAddress t) :
    getERC20Balance lib client a' t' = getERC20Balance lib client a t := by
  simp only [getERC20Balance, ha, ht]

theorem range_congr (lib : Lib) (client : Option EthClient) (sendErr : Nat → Option GoError)
    (t t' : String) (ht : lib.HexToAddress t' = lib.HexToAddress t) (addrs : List String) :
    ∀ (addrs' : List String) (k : Nat),
      addrs'.map lib.HexToAddress = addrs.map lib.HexToAddress →
      (GetAccounts.range lib client sendErr t' addrs' k).2 =
        (GetAccounts.range lib client sendErr t addrs k).2 ∧
      (GetAccounts.range lib client sendErr t' addrs' k).1.map (fun r => r.Erc20Balance) =
        (GetAccounts.range lib client sendErr t addrs k).1.map (fun r => r.Erc20Balance) := by
  induction addrs with
  | nil =>
    intro addrs' k h
    cases addrs' with
    | nil => exact ⟨rfl, rfl⟩
    | cons a' rest' => simp at h
  | cons a rest ih =>
    intro addrs' k h
    cases addrs' with
    | nil => simp at h
    | cons a' rest' =>
      simp only [List.map_cons, List.cons.injEq] at h
      unfold GetAccounts.range
      rw [getERC20Balance_congr lib client a a' t t' h.1 ht]
      cases getERC20Balance lib client a t with
      | error exit => exact ⟨rfl, rfl⟩
      | ok balance =>
        cases hk : sendErr k with
        | some e => exact ⟨rfl, rfl⟩
        | none =>
          have hr := ih rest' (k + 1) h.2
          simp only [List.map_cons, hr.1, hr.2, and_self]

theorem range_addresses (lib : Lib) (client : Option EthClient) (sendErr : Nat → Option GoError)
    (t : String) (addrs : List String) :
    ∀ k, (GetAccounts.range lib client sendErr t addrs k).1.map (fun r => r.EthereumAddress) =
        addrs.take (GetAccounts.range lib client sendErr t addrs k).1.length ∧
      (GetAccounts.range lib client sendErr t addrs k).1.length ≤ addrs.length ∧
      ((GetAccounts.range lib client sendErr t addrs k).2 = none →
        (GetAccounts.range lib client sendErr t addrs k).1.length = addrs.length) := by
  induction addrs with
  | nil => intro k; exact ⟨rfl, Nat.le_refl _, fun _ => rfl⟩
  | cons a rest ih =>
    intro k
    unfold GetAccounts.range
    cases getERC20Balance lib client a t with
    | error exit => simp
    | ok balance =>
      cases hk : sendErr k with
      | some e => simp
      | none =>
        have hr := ih (k + 1)
        refine ⟨?_, ?_, ?_⟩
        · simp only [List.map_cons, List.length_cons, List.take_succ_cons, hr.1]
        · simpa using hr.2.1
        · intro h
          simpa using hr.2.2 h

theorem loop_congr (lib : Lib) (client : Option EthClient) (sendErr : Nat → Option GoError)
    (closing : GoError) (msgs : List GetAccountsRequest) :
    ∀ (msgs' : List GetAccountsRequest) (k : Nat),
      msgs'.map (fun m => (lib.HexToAddress m.Erc20TokenAddress,
          m.EthereumAddresses.map lib.HexToAddress)) =
        msgs.map (fun m => (lib.HexToAddress m.Erc20TokenAddress,
          m.EthereumAddresses.map lib.HexToAddress)) →
      (GetAccounts.loop lib client sendErr closing msgs' k).2 =
        (GetAccounts.loop lib client sendErr closing msgs k).2 ∧
      (GetAccounts.loop lib client sendErr closing msgs' k).1.map (fun r => r.Erc20Balance) =
        (GetAccounts.loop lib client sendErr closing msgs k).1.map (fun r => r.Erc20Balance) := by
  induction msgs with
  | nil =>
    intro msgs' k h
    cases msgs' with
    | nil => exact ⟨rfl, rfl⟩
    | cons m' rest' => simp at h
  | cons m rest ih =>
    intro msgs' k h
    cases msgs' with
    | nil => simp at h
    | cons m' rest' =>
      simp only [List.map_cons, List.cons.injEq, Prod.mk.injEq] at h
      have hr := range_congr lib client sendErr m.Erc20TokenAddress m'.Erc20TokenAddress
        h.1.1 m.EthereumAddresses m'.EthereumAddresses k h.1.2
      have hlen : (GetAccounts.range lib client sendErr m'.Erc20TokenAddress
            m'.EthereumAddresses k).1.length =
          (GetAccounts.range lib client sendErr m.Erc20TokenAddress
            m.EthereumAddresses k).1.length := by
        have := congrArg List.length hr.2
        simpa using this
      unfold GetAccounts.loop
      revert hr hlen
      cases GetAccounts.range lib client sendErr m'.Erc20TokenAddress
          m'.EthereumAddresses k with
      | mk out' e' =>
        cases GetAccounts.range lib client sendErr m.Erc20TokenAddress
            m.EthereumAddresses k with
        | mk out e =>
          intro hr hlen
          simp only at hr hlen
          obtain ⟨he, hb⟩ := hr
          subst he
          cases e' with
          | some exit => exact ⟨rfl, hb⟩
          | none =>
            have hi := ih rest' (k + out.length) h.2
            simp only [hlen, List.map_append, hb, hi.1, hi.2, and_self]

theorem loop_addresses (lib : Lib) (client : Option EthClient) (sendErr : Nat → Option GoError)
    (closing : GoError) (msgs : List GetAccountsRequest) :
    ∀ k, (GetAccounts.loop lib client sendErr closing msgs k).1.map
        (fun r => r.EthereumAddress) =
      (msgs.flatMap fun m => m.EthereumAddresses).take
        (GetAccounts.loop lib client sendErr closing msgs k).1.length := by
  induction msgs with
  | nil => intro k; rfl
  | cons m rest ih =>
    intro k
    have hr := range_addresses lib client sendErr m.Erc20TokenAddress m.EthereumAddresses k
    unfold GetAccounts.loop
    revert hr
    cases GetAccounts.range lib client sendErr m.Erc20TokenAddress m.EthereumAddresses k with
    | mk out e =>
      intro hr
      simp only at hr
      cases e with
      | some exit =>
        simp only [List.flatMap_cons]
        rw [List.take_append_of_le_length hr.2.1]
        exact hr.1
      | none =>
        have hfull := hr.2.2 rfl
        have hout : out.map (fun r => r.EthereumAddress) = m.EthereumAddresses := by
          rw [hr.1, hfull, List.take_length]
        simp only [List.flatMap_cons, List.map_append, List.length_append, hout, ih, hfull]
        rw [List.take_append]

/-- C6, refuted as stated: address texts that are not well formed are not
rejected as badly encoded. A text of the wrong length (`3`), a text that is not
hexadecimal (`0xZZ`) and the empty text, each sent with an empty signature, are
converted to an address and refused as unauthenticated, not as `InvalidEncoding`;
and in a stream the address `zz` with an empty token is converted, queried, and
a response is emitted for it with no error. -/
theorem malformed_address_not_rejected :
    wellFormedAddress "3" = false ∧
    (GetAccount refLib refServer ⟨"3", ""⟩).2 = .error (.errorf "invalid signature" []) ∧
    wellFormedAddress "0xZZ" = false ∧
    (GetAccount refLib refServer ⟨"0xZZ", ""⟩).2 = .error (.errorf "invalid signature" []) ∧
    wellFormedAddress "" = false ∧
    (GetAccount refLib refServer ⟨"", ""⟩).2 = .error (.errorf "invalid signature" []) ∧
    errorKind (.errorf "invalid signature" []) ≠ some .InvalidEncoding ∧
    wellFormedAddress "zz" = false ∧
    GetAccounts refLib ⟨some okLedger⟩ ⟨[⟨["zz"], ""⟩], .EOF, fun _ => none⟩ =
      ([⟨"zz", "0"⟩], .returned none) := by
  decide

/-- C6, amended: on a server whose client handle is set, `GetAccount` fails with
`InvalidEncoding` exactly when the signature text does not decode from base64,
whatever the address text; the address text is converted by `HexToAddress`,
which has no error result, and the run of `GetAccount` depends on the text only
through the converted address. In `GetAccounts` a malformed address or token
text is no error either: `getERC20Balance` depends on the two texts only through
their converted addresses, so two streams whose messages convert to the same
tokens and addresses end alike and emit the same balances, and the addresses
emitted are the texts as supplied, in order. -/
theorem address_text_converted (lib : Lib) (s : Server) (client : EthClient)
    (req : GetAccountRequest) (hclient : s.client = some client) :
    ((∃ e, (GetAccount lib s req).2 = .error e ∧ errorKind e = some .InvalidEncoding) ↔
      ∃ err, lib.DecodeString req.CryptoSignature = .error err) ∧
    (∀ text, lib.HexToAddress text = lib.HexToAddress req.EthereumAddress →
      GetAccount lib s ⟨text, req.CryptoSignature⟩ = GetAccount lib s req) ∧
    (∀ a a' t t', lib.HexToAddress a' = lib.HexToAddress a →
      lib.HexToAddress t' = lib.HexToAddress t →
      getERC20Balance lib s.client a' t' = getERC20Balance lib s.client a t) ∧
    (∀ stream stream' : ServerStream,
      stream'.closing = stream.closing → stream'.sendErr = stream.sendErr →
      stream'.inbound.map (fun m => (lib.HexToAddress m.Erc20TokenAddress,
          m.EthereumAddresses.map lib.HexToAddress)) =
        stream.inbound.map (fun m => (lib.HexToAddress m.Erc20TokenAddress,
          m.EthereumAddresses.map lib.HexToAddress)) →
      (GetAccounts lib s stream').2 = (GetAccounts lib s stream).2 ∧
      (GetAccounts lib s stream').1.map (fun r => r.Erc20Balance) =
        (GetAccounts lib s stream).1.map (fun r => r.Erc20Balance)) ∧
    (∀ stream : ServerStream,
      (GetAccounts lib s stream).1.map (fun r => r.EthereumAddress) =
        (stream.inbound.flatMap fun m => m.EthereumAddresses).take
          (GetAccounts lib s stream).1.length) := by
  refine ⟨⟨?_, ?_⟩, ?_, ?_, ?_, ?_⟩
  · rintro ⟨e, he, hk⟩
    cases hd : lib.DecodeString req.CryptoSignature with
    | error err => exact ⟨err, rfl⟩
    | ok signature =>
      exfalso
      cases hv : isValidSignature lib (lib.HexToAddress req.EthereumAddress) signature with
      | false =>
        rw [GetAccount_invalid lib s client req signature hclient hd hv] at he
        simp only [Except.error.injEq] at he
        rw [← he, errorKind_invalid] at hk
        cases hk
      | true =>
        rw [GetAccount_valid lib s client req signature hclient hd hv] at he
        revert he
        cases GetTokenBalance client (lib.HexToAddress fixedToken)
            (lib.HexToAddress req.EthereumAddress) with
        | mk c₁ r₁ =>
          cases r₁ with
          | error e₁ =>
            intro he
            simp only [Except.error.injEq] at he
            rw [← he, errorKind_balance] at hk
            cases hk
          | ok bal =>
            cases GetNonce client (lib.HexToAddress req.EthereumAddress) with
            | mk c₂ r₂ =>
              cases r₂ with
              | error e₂ =>
                intro he
                simp only [Except.error.injEq] at he
                rw [← he, errorKind_nonce] at hk
                cases hk
              | ok n =>
                intro he
                cases he
  · rintro ⟨err, hd⟩
    exact ⟨_, by rw [GetAccount_decode_error lib s client req err hclient hd],
      errorKind_decode _⟩
  · intro text ht
    simp only [GetAccount, ht]
  · intro a a' t t' ha ht
    exact getERC20Balance_congr lib s.client a a' t t' ha ht
  · intro stream stream' hc hs hm
    unfold GetAccounts
    rw [hc, hs]
    exact loop_congr lib s.client stream.sendErr stream.closing stream.inbound
      stream'.inbound 0 hm
  · intro stream
    exact loop_addresses lib s.client stream.sendErr stream.closing stream.inbound 0

/-- Witness of C6, amended: the texts `3` and the full address `0x00..03` convert
to the same address and the two requests run alike; the stream texts `zz` with an
empty token and the zero address with the token `0x0` convert alike, and the two
streams end alike with the same balance, each echoing its own address text. -/
theorem address_text_converted_witness :
    refLib.HexToAddress "3" = refLib.HexToAddress refAddressText ∧
    GetAccount refLib refServer ⟨"3", ""⟩ = GetAccount refLib refServer ⟨refAddressText, ""⟩ ∧
    ((GetAccounts refLib ⟨some okLedger⟩ ⟨[⟨["zz"], ""⟩], .EOF, fun _ => none⟩).2 =
      (GetAccounts refLib ⟨some okLedger⟩
        ⟨[⟨["0x0000000000000000000000000000000000000000"], "0x0"⟩], .EOF, fun _ => none⟩).2 ∧
     (GetAccounts refLib ⟨some okLedger⟩ ⟨[⟨["zz"], ""⟩], .EOF, fun _ => none⟩).1.map
        (fun r => r.Erc20Balance) =
      (GetAccounts refLib ⟨some okLedger⟩
        ⟨[⟨["0x0000000000000000000000000000000000000000"], "0x0"⟩], .EOF,
          fun _ => none⟩).1.map (fun r => r.Erc20Balance)) ∧
    (GetAccounts refLib ⟨some okLedger⟩ ⟨[⟨["zz"], ""⟩], .EOF, fun _ => none⟩).1.map
        (fun r => r.EthereumAddress) = ["zz"] :=
  ⟨by decide,
    (address_text_converted refLib refServer refLedger ⟨refAddressText, ""⟩
      rfl).2.1 "3" (by decide),
    (address_text_converted refLib ⟨some okLedger⟩ okLedger ⟨refAddressText, ""⟩
      rfl).2.2.2.1
      ⟨[⟨["0x0000000000000000000000000000000000000000"], "0x0"⟩], .EOF, fun _ => none⟩
      ⟨[⟨["zz"], ""⟩], .EOF, fun _ => none⟩ rfl rfl (by decide),
    ((address_text_converted refLib ⟨some okLedger⟩ okLedger ⟨refAddressText, ""⟩
      rfl).2.2.2.2 ⟨[⟨["zz"], ""⟩], .EOF, fun _ => none⟩).trans (by decide)⟩

end Denet
